import Mathlib

/-!
Verification development for the kuqu repository: a shallow embedding of the
resource-addressing parser (src/url.rs), the discovery client
(src/discover.rs), the dynamic-object resource metadata accessors
(src/dynamic.rs), and the table provider / execution adapter
(src/provider.rs), together with theorems about their behaviour.

External collaborators (the Kubernetes API client, the kubeconfig file read,
and the arrow NDJSON reader) are made explicit: each effectful call becomes a
parameter carrying the result that the call would have produced, so that the
control flow of the repository code itself is embedded faithfully.
-/

namespace Kuqu

/-- The slash character, used by the addressing grammar and the subresource
filter. -/
def slash : Char := '/'

/-- Embedding of k8s_openapi APIResource, restricted to the fields the
repository reads: name (the plural name), singular_name, short_names, group,
version, kind and namespaced. -/
structure APIResource where
  name : String
  singular_name : String
  short_names : Option (List String)
  group : Option String
  version : Option String
  kind : String
  namespaced : Bool
deriving DecidableEq

/-- Embedding of kube Context: the per-context data of a kubeconfig entry;
only the optional default namespace is read by the repository. -/
structure KubeContext where
  namespace_ : Option String
deriving DecidableEq

/-- Embedding of kube NamedContext: a kubeconfig context entry. -/
structure NamedContext where
  name : String
  context : Option KubeContext
deriving DecidableEq

/-- Embedding of kube Kubeconfig, restricted to the contexts list, the only
field the repository reads. -/
structure Kubeconfig where
  contexts : List NamedContext
deriving DecidableEq

/-- Embedding of Rust str::split with a char pattern, on the underlying
character list: splitting on every occurrence of c, keeping empty segments,
so that the result always has one more segment than there are separators. -/
def split_char (c : Char) : List Char → List (List Char)
  | [] => [[]]
  | x :: xs =>
    let r := split_char c xs
    if x = c then [] :: r
    else
      match r with
      | [] => [[x]]
      | y :: ys => (x :: y) :: ys

/-- Rust url.split(slash).collect::<Vec<&str>>() as a list of strings. -/
def split_slash (s : String) : List String :=
  (split_char slash s.data).map (fun l => String.mk l)

/-- Embedding of determine_namespace (src/url.rs): the kubeconfigRead
parameter carries the result of the ambient Kubeconfig::read() call. -/
def determine_namespace (namespace_ : Option String) (context : String)
    (kubeconfigRead : Except Unit Kubeconfig) : String :=
  match namespace_ with
  | some ns => ns
  | none =>
    match kubeconfigRead with
    | .ok kubeconfig =>
      ((kubeconfig.contexts.find? (fun c => c.name == context)).bind
        (fun c => c.context.bind (fun ctx => ctx.namespace_))).getD "default"
    | .error _ => "default"

/-- Embedding of match_resource (src/url.rs): exact equality against the
plural name, the singular name, any short name, or the composite
name-dot-group string when the group is present. -/
def match_resource (resource : String) (api_resource : APIResource) : Bool :=
  api_resource.name == resource
    || api_resource.singular_name == resource
    || (match api_resource.short_names with
        | some short_names => short_names.contains resource
        | none => false)
    || (match api_resource.group with
        | some group => (api_resource.name ++ "." ++ group) == resource
        | none => false)

/-- Embedding of find_resource (src/url.rs): first catalog entry that
matches, scanned in order. -/
def find_resource (resource : String) (api_resources : List APIResource) :
    Option APIResource :=
  match api_resources with
  | [] => none
  | a :: rest =>
    if match_resource resource a then some a else find_resource resource rest

/-- Embedding of ParseError (src/url.rs). -/
inductive ParseError where
  | EmptyUrl : ParseError
  | InvalidFormat : String → ParseError
  | ResourceNotFound : String → ParseError
deriving DecidableEq

/-- Embedding of KubernetesUrl (src/url.rs): a resolved descriptor plus a
namespace string. -/
structure KubernetesUrl where
  resource : APIResource
  namespace_ : String
deriving DecidableEq

/-- Embedding of KubernetesUrl::parse (src/url.rs): empty check first, then
split on slash, then segment-count dispatch, then catalog lookup. The
kubeconfigRead parameter carries the result of the Kubeconfig::read() call
made by determine_namespace. -/
def KubernetesUrl.parse (url : String) (context : String)
    (api_resources : List APIResource) (kubeconfigRead : Except Unit Kubeconfig) :
    Except ParseError KubernetesUrl :=
  if url = "" then .error .EmptyUrl
  else
    let dispatched : Except ParseError (String × String) :=
      match split_slash url with
      | [resource] => .ok (resource, determine_namespace none context kubeconfigRead)
      | [resource, namespace_] => .ok (resource, namespace_)
      | _ => .error (.InvalidFormat url)
    match dispatched with
    | .error e => .error e
    | .ok (resource, namespace_) =>
      match find_resource resource api_resources with
      | some api_resource => .ok ⟨api_resource, namespace_⟩
      | none => .error (.ResourceNotFound resource)

/-- Embedding of Rust str::split_once with a char pattern, on the underlying
character list: split at the first occurrence of c only. -/
def split_once_aux (c : Char) : List Char → Option (List Char × List Char)
  | [] => none
  | x :: xs =>
    if x = c then some ([], xs)
    else (split_once_aux c xs).map (fun p => (x :: p.1, p.2))

/-- Rust gv.split_once(slash) as an optional pair of strings. -/
def split_once (c : Char) (s : String) : Option (String × String) :=
  (split_once_aux c s.data).map (fun p => (String.mk p.1, String.mk p.2))

/-- Discovery errors (anyhow::Error), modelled as message strings. -/
def DiscoverError := String
deriving instance DecidableEq for DiscoverError

/-- Embedding of k8s_openapi GroupVersionForDiscovery, restricted to the
group_version string the repository reads. -/
structure GroupVersionForDiscovery where
  group_version : String
deriving DecidableEq

/-- Embedding of k8s_openapi APIGroup, restricted to the versions list. -/
structure APIGroup where
  versions : List GroupVersionForDiscovery
deriving DecidableEq

/-- Embedding of k8s_openapi APIResourceList, restricted to the resources
list; the Default instance used by unwrap_or_default has an empty list. -/
structure APIResourceList where
  resources : List APIResource
deriving DecidableEq

/-- The back-fill loop of DiscoverClient::list_api_groups_resources
(src/discover.rs): when the requested group-version string splits on slash,
each returned descriptor gets its group and version set from that split;
otherwise the descriptors are left untouched. -/
def backfill_group_version (group_version : String)
    (resources : List APIResource) : List APIResource :=
  resources.map (fun resource =>
    match split_once slash group_version with
    | some (group, version) =>
      { resource with group := some group, version := some version }
    | none => resource)

/-- The contribution of one (group, version) pair in
DiscoverClient::list_api_groups_resources: fetch the resource-type list for
the pair, back-fill group and version on success, and on failure take the
default (empty) list, exactly as unwrap_or_default does. -/
def group_pair_resources (fetch : String → Except DiscoverError APIResourceList)
    (group_version : String) : List APIResource :=
  match fetch group_version with
  | .ok list => backfill_group_version group_version list.resources
  | .error _ => []

/-- Embedding of DiscoverClient::list_api_groups_resources (src/discover.rs).
The groupsRead parameter carries the result of client.list_api_groups(), and
fetch carries client.list_api_group_resources for each group-version string.
A fetch failure for a pair contributes the default empty list. -/
def list_api_groups_resources
    (groupsRead : Except DiscoverError (List APIGroup))
    (fetch : String → Except DiscoverError APIResourceList) :
    Except DiscoverError (List APIResource) :=
  match groupsRead with
  | .error e => .error e
  | .ok groups =>
    let group_versions := (groups.map APIGroup.versions).flatten
    .ok ((group_versions.map
      (fun v => group_pair_resources fetch v.group_version)).flatten)

/-- The per-version step of DiscoverClient::list_core_api_resources: fetch
the core resource-type list for one version and back-fill group core and
that version on every descriptor; a fetch failure is propagated. -/
def core_version_resources
    (fetch : String → Except DiscoverError APIResourceList)
    (version : String) : Except DiscoverError APIResourceList :=
  match fetch version with
  | .ok list =>
    .ok { list with
          resources := list.resources.map (fun resource =>
            { resource with group := some "core", version := some version }) }
  | .error e => .error e

/-- Deterministic embedding of try_join_all over the per-version core
fetches: every per-version step must succeed, and the first failure in list
order is propagated for the whole call. -/
def try_collect_core
    (fetch : String → Except DiscoverError APIResourceList) :
    List String → Except DiscoverError (List APIResourceList)
  | [] => .ok []
  | version :: rest =>
    match core_version_resources fetch version with
    | .error e => .error e
    | .ok list =>
      match try_collect_core fetch rest with
      | .error e => .error e
      | .ok lists => .ok (list :: lists)

/-- Embedding of DiscoverClient::list_core_api_resources (src/discover.rs).
The versionsRead parameter carries the result of
client.list_core_api_versions(), and fetch carries
client.list_core_api_resources per version. -/
def list_core_api_resources
    (versionsRead : Except DiscoverError (List String))
    (fetch : String → Except DiscoverError APIResourceList) :
    Except DiscoverError (List APIResource) :=
  match versionsRead with
  | .error e => .error e
  | .ok versions =>
    match try_collect_core fetch versions with
    | .error e => .error e
    | .ok lists => .ok ((lists.map APIResourceList.resources).flatten)

/-- Embedding of DiscoverClient::list_api_resources (src/discover.rs):
grouped resources chained with core resources, then subresources (plural
name containing a slash) filtered out. -/
def list_api_resources
    (groupsRead : Except DiscoverError (List APIGroup))
    (fetchGroup : String → Except DiscoverError APIResourceList)
    (versionsRead : Except DiscoverError (List String))
    (fetchCore : String → Except DiscoverError APIResourceList) :
    Except DiscoverError (List APIResource) :=
  match list_api_groups_resources groupsRead fetchGroup with
  | .error e => .error e
  | .ok grouped =>
    match list_core_api_resources versionsRead fetchCore with
    | .error e => .error e
    | .ok core =>
      .ok ((grouped ++ core).filter (fun resource =>
        !(resource.name.data.contains slash)))

/-- Embedding of the group accessor of the Resource implementation for
DynamicObject (src/dynamic.rs). The unwrap on the group field is modelled by
Option: a none result is the panic case. For the group core the empty string
is returned. -/
def DynamicObject.group (dt : APIResource) : Option String :=
  match dt.group with
  | none => none
  | some group => some (if group = "core" then "" else group)

/-- Embedding of the version accessor of the Resource implementation for
DynamicObject (src/dynamic.rs); none is the panic case of the unwrap. -/
def DynamicObject.version (dt : APIResource) : Option String :=
  match dt.version with
  | none => none
  | some version => some version

/-- Embedding of the api_version accessor of the Resource implementation for
DynamicObject (src/dynamic.rs); none is the panic case of the unwraps: for
the group core the version alone, otherwise group slash version. -/
def DynamicObject.api_version (dt : APIResource) : Option String :=
  match dt.group with
  | none => none
  | some group =>
    if group = "core" then
      match dt.version with
      | none => none
      | some version => some version
    else
      match dt.version with
      | none => none
      | some version => some (group ++ "/" ++ version)

/-- The single-quote character as a one-character string, used by the Rust
format strings that quote user-supplied names. -/
def squote : String := String.singleton (Char.ofNat 39)

/-- Embedding of the SUPPORTED_FORMATS constant (src/url.rs). -/
def SUPPORTED_FORMATS : String :=
  "Supported formats:\n- `pod` => pod in default namespace\n- `pod/namespace` => Pod in `something` namespace\n- `node/something` => For non-namespaced resources, namespace is ignored"

/-- Embedding of the Display implementation for ParseError (src/url.rs). -/
def ParseError.display : ParseError → String
  | .EmptyUrl => "URL is empty"
  | .InvalidFormat url =>
    "Invalid URL format: " ++ url ++ "\n\n" ++ SUPPORTED_FORMATS
  | .ResourceNotFound resource =>
    "Resource " ++ squote ++ resource ++ squote ++ " not found"

/-- Embedding of DataFusionError, restricted to the variants the repository
produces: plan errors and wrapped external errors (modelled as strings). -/
inductive DataFusionError where
  | Plan : String → DataFusionError
  | External : String → DataFusionError
deriving DecidableEq

/-- Embedding of kube ObjectList, restricted to the items list. -/
structure ObjectList (Obj : Type) where
  items : List Obj

/-- Embedding of KubernetesTableProvider (src/provider.rs): the inferred
schema plus the NDJSON blob the rows will be materialized from. -/
structure KubernetesTableProvider (Schema : Type) where
  schema : Schema
  ndjson : String

/-- Embedding of KubernetesTableProviderFactory::try_new (src/provider.rs).
The effectful collaborators are explicit parameters: serialize carries
serde_json serialization of one object to its NDJSON line, list_fn carries
the list_api_resources method of the factory (the Kubernetes list call with
managed fields already stripped), and infer_schema carries the arrow schema
inference over the blob. -/
def KubernetesTableProviderFactory.try_new {Obj Schema : Type}
    (serialize : Obj → String)
    (context : String) (api_resources : List APIResource)
    (kubeconfigRead : Except Unit Kubeconfig)
    (list_fn : APIResource → String → Except DataFusionError (ObjectList Obj))
    (infer_schema : String → Except DataFusionError Schema)
    (url : String) :
    Except DataFusionError (Option (KubernetesTableProvider Schema)) :=
  match KubernetesUrl.parse url context api_resources kubeconfigRead with
  | .error e =>
    .error (.Plan ("Invalid Kubernetes URL " ++ squote ++ url ++ squote
      ++ ": " ++ e.display))
  | .ok kubeurl =>
    match list_fn kubeurl.resource kubeurl.namespace_ with
    | .error e => .error e
    | .ok object_list =>
      if object_list.items.isEmpty then
        .error (.Plan ("No items found for resource " ++ squote
          ++ kubeurl.resource.kind ++ squote ++ " in namespace " ++ squote
          ++ kubeurl.namespace_ ++ squote))
      else
        let ndjson := String.intercalate "\n" (object_list.items.map serialize)
        match infer_schema ndjson with
        | .error e => .error e
        | .ok schema => .ok (some ⟨schema, ndjson⟩)

/-- Model of an arrow RecordBatch at the granularity the materialization
claims need: the list of rows it holds (a row stands for one decoded JSON
line); the schema, shared by every batch of one reader, is dropped. -/
structure RecordBatch where
  rows : List String
deriving DecidableEq

/-- Arrow errors, modelled as message strings. -/
def ArrowError := String
deriving instance DecidableEq for ArrowError

/-- Model of arrow concat_batches: the rows of all batches in order. -/
def concat_batches (batches : List RecordBatch) : RecordBatch :=
  ⟨(batches.map RecordBatch.rows).flatten⟩

/-- Model of arrow RecordBatch::new_empty: a batch with zero rows. -/
def RecordBatch.new_empty : RecordBatch := ⟨[]⟩

/-- The reader loop of record_batch_from_ndjson (src/provider.rs): push each
successful batch; on a failed batch, break out keeping the batches read so
far if there are any, and fail with the underlying error otherwise. -/
def collect_batches (acc : List RecordBatch) :
    List (Except ArrowError RecordBatch) → Except ArrowError (List RecordBatch)
  | [] => .ok acc
  | .ok batch :: rest => collect_batches (acc ++ [batch]) rest
  | .error e :: _ => if acc.isEmpty then .error e else .ok acc

/-- Embedding of record_batch_from_ndjson (src/provider.rs). The reader
parameter carries the successive results yielded by the external arrow
NDJSON reader built over the blob: the loop body, the empty-batch case and
the final concatenation are the code under embedding. -/
def record_batch_from_ndjson
    (reader : List (Except ArrowError RecordBatch)) :
    Except ArrowError RecordBatch :=
  match collect_batches [] reader with
  | .error e => .error e
  | .ok batches =>
    if batches.isEmpty then .ok RecordBatch.new_empty
    else .ok (concat_batches batches)

/-- Embedding of KubernetesExec::execute (src/provider.rs): one record batch
built from the blob, wrapped as the single element of the memory stream; a
failure of the batch construction fails the execution. -/
def KubernetesExec.execute
    (reader : List (Except ArrowError RecordBatch)) :
    Except ArrowError (List RecordBatch) :=
  match record_batch_from_ndjson reader with
  | .error e => .error e
  | .ok batch => .ok [batch]

/-- A namespaced sample descriptor, as discovery would produce it for the
core pods resource. -/
def podsResource : APIResource :=
  { name := "pods", singular_name := "pod", short_names := some ["po"],
    group := some "core", version := some "v1", kind := "Pod",
    namespaced := true }

/-- A cluster-scoped sample descriptor for the core nodes resource. -/
def nodesResource : APIResource :=
  { name := "nodes", singular_name := "node", short_names := some ["no"],
    group := some "core", version := some "v1", kind := "Node",
    namespaced := false }

/-- A sample descriptor for a grouped resource, before back-fill: group and
version are absent, as the remote discovery endpoint returns them. -/
def deploymentsResource : APIResource :=
  { name := "deployments", singular_name := "deployment",
    short_names := some ["deploy"], group := none, version := none,
    kind := "Deployment", namespaced := true }

/-- A sample subresource descriptor, as returned by core discovery. -/
def podsStatusResource : APIResource :=
  { name := "pods/status", singular_name := "", short_names := none,
    group := some "core", version := some "v1", kind := "Pod",
    namespaced := true }

/-- A sample two-descriptor catalog. -/
def sampleCatalog : List APIResource := [podsResource, nodesResource]

/-- A sample API group list carrying the single pair apps/v1. -/
def sampleGroups : List APIGroup := [⟨[⟨"apps/v1"⟩]⟩]

/-- A fetch stub that fails on every group-version string. -/
def failingFetch : String → Except DiscoverError APIResourceList :=
  fun _ => .error "connection refused"

/-- A fetch stub for grouped discovery returning the deployments list. -/
def sampleGroupFetch : String → Except DiscoverError APIResourceList :=
  fun _ => .ok ⟨[deploymentsResource]⟩

/-- A fetch stub for core discovery returning pods plus a subresource. -/
def sampleCoreFetch : String → Except DiscoverError APIResourceList :=
  fun _ => .ok ⟨[podsResource, podsStatusResource]⟩

/-- A sample kubeconfig: one context with a default namespace recorded, one
context entry without context data. -/
def sampleKubeconfig : Kubeconfig :=
  ⟨[⟨"ctx", some ⟨some "team-a"⟩⟩, ⟨"other", none⟩]⟩

/-- The deployments descriptor after back-fill from the pair apps/v1. -/
def deploymentsBackfilled : APIResource :=
  { deploymentsResource with group := some "apps", version := some "v1" }

theorem match_resource_eq_true_iff (resource : String) (a : APIResource) :
    match_resource resource a = true ↔
      (a.name = resource ∨ a.singular_name = resource ∨
        (∃ short_names, a.short_names = some short_names ∧
          resource ∈ short_names) ∨
        (∃ group, a.group = some group ∧ a.name ++ "." ++ group = resource)) := by
  cases hs : a.short_names <;> cases hg : a.group <;>
    simp [match_resource, hs, hg, or_assoc]

theorem find_resource_eq_some_iff (resource : String)
    (api_resources : List APIResource) (a : APIResource) :
    find_resource resource api_resources = some a ↔
      ∃ pre post, api_resources = pre ++ a :: post ∧
        match_resource resource a = true ∧
        ∀ b ∈ pre, match_resource resource b = false := by
  induction api_resources with
  | nil => simp [find_resource]
  | cons x xs ih =>
    simp only [find_resource]
    by_cases h : match_resource resource x = true
    · rw [if_pos h]
      simp only [Option.some.injEq]
      constructor
      · rintro rfl
        exact ⟨[], xs, rfl, h, by simp⟩
      · rintro ⟨pre, post, heq, hma, hpre⟩
        cases pre with
        | nil =>
          obtain ⟨h1, -⟩ : x = a ∧ xs = post := by simpa using heq
          exact h1
        | cons p ps =>
          obtain ⟨h1, -⟩ : x = p ∧ xs = ps ++ a :: post := by simpa using heq
          rw [h1] at h
          rw [hpre p (by simp)] at h
          exact absurd h (by simp)
    · rw [if_neg h]
      rw [ih]
      constructor
      · rintro ⟨pre, post, heq, hma, hpre⟩
        refine ⟨x :: pre, post, by simp [heq], hma, ?_⟩
        intro b hb
        rcases List.mem_cons.mp hb with rfl | hb
        · simpa using h
        · exact hpre b hb
      · rintro ⟨pre, post, heq, hma, hpre⟩
        cases pre with
        | nil =>
          obtain ⟨h1, -⟩ : x = a ∧ xs = post := by simpa using heq
          rw [← h1] at hma
          exact absurd hma h
        | cons p ps =>
          obtain ⟨h1, h2⟩ : x = p ∧ xs = ps ++ a :: post := by simpa using heq
          exact ⟨ps, post, h2, hma, fun b hb => hpre b (by simp [hb])⟩

theorem find_resource_eq_none_iff (resource : String)
    (api_resources : List APIResource) :
    find_resource resource api_resources = none ↔
      ∀ a ∈ api_resources, match_resource resource a = false := by
  induction api_resources with
  | nil => simp [find_resource]
  | cons x xs ih =>
    by_cases h : match_resource resource x = true <;>
      simp [find_resource, h, ih]

/-- C1: parse of the addressing string checks emptiness first, then splits
on the slash: an empty input fails with EmptyUrl for every catalog; one
segment is a bare resource name with the namespace defaulted through
determine_namespace; two segments take the second segment as the namespace
literally, with no condition on the namespaced flag of the matched
descriptor; three or more segments fail with InvalidFormat carrying the raw
input, for every catalog, so before any catalog lookup. -/
theorem C1_parse_segment_dispatch (url context : String)
    (api_resources : List APIResource)
    (kubeconfigRead : Except Unit Kubeconfig) :
    (url = "" →
      KubernetesUrl.parse url context api_resources kubeconfigRead =
        .error .EmptyUrl) ∧
    (∀ resource a, url ≠ "" → split_slash url = [resource] →
      find_resource resource api_resources = some a →
      KubernetesUrl.parse url context api_resources kubeconfigRead =
        .ok ⟨a, determine_namespace none context kubeconfigRead⟩) ∧
    (∀ resource namespace_ a, url ≠ "" →
      split_slash url = [resource, namespace_] →
      find_resource resource api_resources = some a →
      KubernetesUrl.parse url context api_resources kubeconfigRead =
        .ok ⟨a, namespace_⟩) ∧
    (url ≠ "" → 3 ≤ (split_slash url).length →
      KubernetesUrl.parse url context api_resources kubeconfigRead =
        .error (.InvalidFormat url)) := by
  refine ⟨fun h => by simp [KubernetesUrl.parse, h], ?_, ?_, ?_⟩
  · intro resource a hne hsplit hfind
    simp [KubernetesUrl.parse, hne, hsplit, hfind]
  · intro resource namespace_ a hne hsplit hfind
    simp [KubernetesUrl.parse, hne, hsplit, hfind]
  · intro hne hlen
    rcases hsplit : split_slash url with _ | ⟨r1, _ | ⟨r2, _ | ⟨r3, rest⟩⟩⟩
    · rw [hsplit] at hlen; simp at hlen
    · rw [hsplit] at hlen; simp at hlen
    · rw [hsplit] at hlen; simp at hlen
    · simp [KubernetesUrl.parse, hne, hsplit]

/-- Witness for C1: the four dispatch outcomes at concrete inputs. -/
theorem C1_parse_segment_dispatch_witness :
    KubernetesUrl.parse "" "ctx" sampleCatalog (.error ()) =
      .error .EmptyUrl ∧
    KubernetesUrl.parse "pods" "ctx" sampleCatalog (.error ()) =
      .ok ⟨podsResource, "default"⟩ ∧
    KubernetesUrl.parse "nodes/ns1" "ctx" sampleCatalog (.error ()) =
      .ok ⟨nodesResource, "ns1"⟩ ∧
    KubernetesUrl.parse "a/b/c" "ctx" sampleCatalog (.error ()) =
      .error (.InvalidFormat "a/b/c") := by
  refine ⟨(C1_parse_segment_dispatch "" "ctx" sampleCatalog (.error ())).1 rfl,
    ?_, ?_, ?_⟩
  · exact (C1_parse_segment_dispatch "pods" "ctx" sampleCatalog
      (.error ())).2.1 "pods" podsResource (by decide) (by decide) (by decide)
  · exact (C1_parse_segment_dispatch "nodes/ns1" "ctx" sampleCatalog
      (.error ())).2.2.1 "nodes" "ns1" nodesResource (by decide) (by decide)
      (by decide)
  · exact (C1_parse_segment_dispatch "a/b/c" "ctx" sampleCatalog
      (.error ())).2.2.2 (by decide) (by decide)

/-- C2: resource resolution scans the catalog in order and returns the
first descriptor matched by exact equality against the plural name, the
singular name, a short name, or the name-dot-group composite when the group
is present; an unmatched segment makes parse fail with ResourceNotFound
carrying the segment. -/
theorem C2_first_exact_match (resource : String)
    (api_resources : List APIResource) :
    (∀ a, match_resource resource a = true ↔
      (a.name = resource ∨ a.singular_name = resource ∨
        (∃ short_names, a.short_names = some short_names ∧
          resource ∈ short_names) ∨
        (∃ group, a.group = some group ∧
          a.name ++ "." ++ group = resource))) ∧
    (∀ a, find_resource resource api_resources = some a ↔
      ∃ pre post, api_resources = pre ++ a :: post ∧
        match_resource resource a = true ∧
        ∀ b ∈ pre, match_resource resource b = false) ∧
    (find_resource resource api_resources = none ↔
      ∀ a ∈ api_resources, match_resource resource a = false) ∧
    (∀ url namespace_ context kubeconfigRead, url ≠ "" →
      (split_slash url = [resource] ∨
        split_slash url = [resource, namespace_]) →
      find_resource resource api_resources = none →
      KubernetesUrl.parse url context api_resources kubeconfigRead =
        .error (.ResourceNotFound resource)) := by
  refine ⟨fun a => match_resource_eq_true_iff resource a,
    fun a => find_resource_eq_some_iff resource api_resources a,
    find_resource_eq_none_iff resource api_resources, ?_⟩
  intro url namespace_ context kubeconfigRead hne hsplit hfind
  rcases hsplit with hsplit | hsplit <;>
    simp [KubernetesUrl.parse, hne, hsplit, hfind]

/-- Witness for C2: a short-name match, the first-match decomposition, an
unmatched lookup and the resulting ResourceNotFound, all concrete. -/
theorem C2_first_exact_match_witness :
    match_resource "po" podsResource = true ∧
    find_resource "no" sampleCatalog = some nodesResource ∧
    find_resource "quota" sampleCatalog = none ∧
    KubernetesUrl.parse "quota/ns1" "ctx" sampleCatalog (.error ()) =
      .error (.ResourceNotFound "quota") := by
  refine ⟨?_, ?_, ?_, ?_⟩
  · exact ((C2_first_exact_match "po" sampleCatalog).1 podsResource).mpr
      (Or.inr (Or.inr (Or.inl ⟨["po"], rfl, by simp⟩)))
  · exact ((C2_first_exact_match "no" sampleCatalog).2.1 nodesResource).mpr
      ⟨[podsResource], [], rfl, by decide, by decide⟩
  · exact (C2_first_exact_match "quota" sampleCatalog).2.2.1.mpr (by decide)
  · exact (C2_first_exact_match "quota" sampleCatalog).2.2.2 "quota/ns1"
      "ns1" "ctx" (.error ()) (by decide) (Or.inr (by decide)) (by decide)

theorem split_char_ne_nil (c : Char) (l : List Char) : split_char c l ≠ [] := by
  induction l with
  | nil => simp [split_char]
  | cons x xs ih =>
    simp only [split_char]
    by_cases h : x = c
    · simp [h]
    · rw [if_neg h]
      cases hr : split_char c xs <;> simp

theorem split_slash_ne_nil (s : String) : split_slash s ≠ [] := by
  intro h
  exact split_char_ne_nil slash s.data (List.map_eq_nil_iff.mp h)

theorem name_dot_group_ne_empty (s g : String) : s ++ "." ++ g ≠ "" := by
  intro h
  have hd : (s ++ "." ++ g).data = ("" : String).data := congrArg String.data h
  simp [String.data_append] at hd

/-- C9: a two-segment addressing string with an empty first segment is not
a format error: parse resolves the empty string against the catalog by the
usual exact matching (where only the plural name, the singular name or a
short name can be empty, never the name-dot-group composite) and otherwise
fails with ResourceNotFound carrying the empty name; splitting never yields
zero segments, and InvalidFormat arises only for three or more segments,
carrying the raw input. -/
theorem C9_empty_first_segment :
    (∀ url context api_resources kubeconfigRead namespace_ a,
      split_slash url = ["", namespace_] →
      find_resource "" api_resources = some a →
      KubernetesUrl.parse url context api_resources kubeconfigRead =
        .ok ⟨a, namespace_⟩) ∧
    (∀ url context api_resources kubeconfigRead namespace_,
      split_slash url = ["", namespace_] →
      find_resource "" api_resources = none →
      KubernetesUrl.parse url context api_resources kubeconfigRead =
        .error (.ResourceNotFound "")) ∧
    (∀ a : APIResource, match_resource "" a = true ↔
      (a.name = "" ∨ a.singular_name = "" ∨
        ∃ short_names, a.short_names = some short_names ∧
          "" ∈ short_names)) ∧
    (∀ url : String, split_slash url ≠ []) ∧
    (∀ url context api_resources kubeconfigRead s,
      KubernetesUrl.parse url context api_resources kubeconfigRead =
        .error (.InvalidFormat s) →
      s = url ∧ 3 ≤ (split_slash url).length) := by
  refine ⟨?_, ?_, ?_, split_slash_ne_nil, ?_⟩
  · intro url context api_resources kubeconfigRead namespace_ a hsplit hfind
    have hne : url ≠ "" := by
      intro h
      subst h
      simp [split_slash, split_char] at hsplit
    simp [KubernetesUrl.parse, hne, hsplit, hfind]
  · intro url context api_resources kubeconfigRead namespace_ hsplit hfind
    have hne : url ≠ "" := by
      intro h
      subst h
      simp [split_slash, split_char] at hsplit
    simp [KubernetesUrl.parse, hne, hsplit, hfind]
  · intro a
    rw [match_resource_eq_true_iff]
    constructor
    · rintro (h | h | h | ⟨g, _, hcomp⟩)
      · exact Or.inl h
      · exact Or.inr (Or.inl h)
      · exact Or.inr (Or.inr h)
      · exact absurd hcomp (name_dot_group_ne_empty a.name g)
    · rintro (h | h | h)
      · exact Or.inl h
      · exact Or.inr (Or.inl h)
      · exact Or.inr (Or.inr (Or.inl h))
  · intro url context api_resources kubeconfigRead s hparse
    by_cases hne : url = ""
    · subst hne
      simp [KubernetesUrl.parse] at hparse
    · rcases hsplit : split_slash url with _ | ⟨r1, _ | ⟨r2, _ | ⟨r3, rest⟩⟩⟩
      · exact absurd hsplit (split_slash_ne_nil url)
      · cases hf : find_resource r1 api_resources <;>
          simp [KubernetesUrl.parse, hne, hsplit, hf] at hparse
      · cases hf : find_resource r1 api_resources <;>
          simp [KubernetesUrl.parse, hne, hsplit, hf] at hparse
      · simp [KubernetesUrl.parse, hne, hsplit] at hparse
        exact ⟨hparse.symm, by simp⟩

/-- Witness for C9: a slash-led string resolves as the empty resource name
and fails with ResourceNotFound on the sample catalog; splitting is never
empty; InvalidFormat at a concrete three-segment input. -/
theorem C9_empty_first_segment_witness :
    KubernetesUrl.parse "/ns2" "ctx" sampleCatalog (.error ()) =
      .error (.ResourceNotFound "") ∧
    split_slash "a/b" ≠ [] ∧
    ("a/b/c" = "a/b/c" ∧ 3 ≤ (split_slash "a/b/c").length) := by
  refine ⟨?_, C9_empty_first_segment.2.2.2.1 "a/b",
    C9_empty_first_segment.2.2.2.2 "a/b/c" "ctx" [] (.error ()) "a/b/c" rfl⟩
  exact C9_empty_first_segment.2.1 "/ns2" "ctx" sampleCatalog (.error ())
    "ns2" (by decide) (by decide)

/-- C7: with no explicit namespace, determine_namespace takes the default
namespace recorded for the active context in the kubeconfig when present,
and falls back silently to the literal default when the kubeconfig read
fails, when the active context is not found, or when the found entry has no
context data or no default namespace. -/
theorem C7_default_namespace_resolution (context : String) :
    (∀ kubeconfig entry ctx ns,
      kubeconfig.contexts.find? (fun c => c.name == context) = some entry →
      entry.context = some ctx → ctx.namespace_ = some ns →
      determine_namespace none context (.ok kubeconfig) = ns) ∧
    (determine_namespace none context (.error ()) = "default") ∧
    (∀ kubeconfig,
      kubeconfig.contexts.find? (fun c => c.name == context) = none →
      determine_namespace none context (.ok kubeconfig) = "default") ∧
    (∀ kubeconfig entry,
      kubeconfig.contexts.find? (fun c => c.name == context) = some entry →
      entry.context = none →
      determine_namespace none context (.ok kubeconfig) = "default") ∧
    (∀ kubeconfig entry ctx,
      kubeconfig.contexts.find? (fun c => c.name == context) = some entry →
      entry.context = some ctx → ctx.namespace_ = none →
      determine_namespace none context (.ok kubeconfig) = "default") := by
  refine ⟨?_, rfl, ?_, ?_, ?_⟩ <;> intros <;>
    simp [determine_namespace, *]

/-- Witness for C7: the fallback chain at a concrete kubeconfig. -/
theorem C7_default_namespace_resolution_witness :
    determine_namespace none "ctx" (.ok sampleKubeconfig) = "team-a" ∧
    determine_namespace none "ctx" (.error ()) = "default" ∧
    determine_namespace none "missing" (.ok sampleKubeconfig) = "default" ∧
    determine_namespace none "other" (.ok sampleKubeconfig) = "default" := by
  refine ⟨?_, (C7_default_namespace_resolution "ctx").2.1, ?_, ?_⟩
  · exact (C7_default_namespace_resolution "ctx").1 sampleKubeconfig
      ⟨"ctx", some ⟨some "team-a"⟩⟩ ⟨some "team-a"⟩ "team-a" (by decide)
      rfl rfl
  · exact (C7_default_namespace_resolution "missing").2.2.1 sampleKubeconfig
      (by decide)
  · exact (C7_default_namespace_resolution "other").2.2.2.1 sampleKubeconfig
      ⟨"other", none⟩ (by decide) rfl

theorem try_collect_core_append_error
    (fetch : String → Except DiscoverError APIResourceList)
    (versions1 : List String) (v : String) (versions2 : List String)
    (e : DiscoverError)
    (hok : ∀ w ∈ versions1, ∃ list, fetch w = .ok list)
    (herr : fetch v = .error e) :
    try_collect_core fetch (versions1 ++ v :: versions2) = .error e := by
  induction versions1 with
  | nil =>
    simp [try_collect_core, core_version_resources, herr]
  | cons w ws ih =>
    obtain ⟨list, hw⟩ := hok w (by simp)
    have ih' := ih (fun u hu => hok u (by simp [hu]))
    simp [try_collect_core, core_version_resources, hw, ih']

theorem try_collect_core_mem
    (fetch : String → Except DiscoverError APIResourceList) :
    ∀ (versions : List String) (lists : List APIResourceList)
      (resource : APIResource),
    try_collect_core fetch versions = .ok lists →
    resource ∈ (lists.map APIResourceList.resources).flatten →
    resource.group = some "core" ∧
      ∃ version ∈ versions, resource.version = some version := by
  intro versions
  induction versions with
  | nil =>
    intro lists r hok hmem
    simp [try_collect_core] at hok
    subst hok
    simp at hmem
  | cons v vs ih =>
    intro lists r hok hmem
    cases hcv : core_version_resources fetch v with
    | error e => simp [try_collect_core, hcv] at hok
    | ok l0 =>
      cases hrest : try_collect_core fetch vs with
      | error e => simp [try_collect_core, hcv, hrest] at hok
      | ok ls =>
        have hl : lists = l0 :: ls := by
          simp [try_collect_core, hcv, hrest] at hok
          exact hok.symm
        subst hl
        simp only [List.map_cons, List.flatten_cons, List.mem_append] at hmem
        rcases hmem with hmem | hmem
        · cases hf : fetch v with
          | error e => simp [core_version_resources, hf] at hcv
          | ok list =>
            have hl0 : l0.resources = list.resources.map
                (fun resource =>
                  { resource with
                    group := some "core", version := some v }) := by
              simp [core_version_resources, hf] at hcv
              exact congrArg APIResourceList.resources hcv.symm
            rw [hl0] at hmem
            obtain ⟨x, _, rfl⟩ := List.mem_map.mp hmem
            exact ⟨rfl, v, by simp, rfl⟩
        · obtain ⟨hg, w, hw, hv⟩ := ih ls r hrest hmem
          exact ⟨hg, w, by simp [hw], hv⟩

theorem contains_isSome_split_once_aux (c : Char) (l : List Char)
    (h : l.contains c = true) : (split_once_aux c l).isSome := by
  induction l with
  | nil => simp at h
  | cons x xs ih =>
    simp only [split_once_aux]
    by_cases hx : x = c
    · simp [hx]
    · rw [if_neg hx]
      have hxs : xs.contains c = true := by
        simp only [List.contains_cons, Bool.or_eq_true] at h
        rcases h with h | h
        · have hcx : c = x := by simpa using h
          exact absurd hcx.symm hx
        · exact h
      have := ih hxs
      simp [Option.isSome_map]
      exact this

/-- C3: discovery failure tolerance is asymmetric: a failing per-pair fetch
for a grouped family contributes no descriptors and grouped discovery (and
the whole catalog build, given core success) still succeeds, while a
failing core per-version fetch fails the whole catalog build with that
error. -/
theorem C3_discovery_failure_asymmetry :
    (∀ fetch group_version e, fetch group_version = .error e →
      group_pair_resources fetch group_version = []) ∧
    (∀ groups fetchGroup, ∃ resources,
      list_api_groups_resources (.ok groups) fetchGroup = .ok resources) ∧
    (∀ groups fetchGroup versions fetchCore core,
      list_core_api_resources (.ok versions) fetchCore = .ok core →
      ∃ resources,
        list_api_resources (.ok groups) fetchGroup (.ok versions) fetchCore =
          .ok resources) ∧
    (∀ groups fetchGroup versions1 v versions2 fetchCore e,
      (∀ w ∈ versions1, ∃ list, fetchCore w = .ok list) →
      fetchCore v = .error e →
      list_api_resources (.ok groups) fetchGroup
        (.ok (versions1 ++ v :: versions2)) fetchCore = .error e) := by
  refine ⟨?_, ?_, ?_, ?_⟩
  · intro fetch gv e h
    simp [group_pair_resources, h]
  · intro groups fetchGroup
    exact ⟨_, rfl⟩
  · intro groups fetchGroup versions fetchCore core hcore
    obtain ⟨grouped, hg⟩ :
        ∃ r, list_api_groups_resources (.ok groups) fetchGroup = .ok r :=
      ⟨_, rfl⟩
    refine ⟨(grouped ++ core).filter
      (fun r => !(r.name.data.contains slash)), ?_⟩
    simp [list_api_resources, hg, hcore]
  · intro groups fetchGroup versions1 v versions2 fetchCore e hok herr
    have hcore : list_core_api_resources (.ok (versions1 ++ v :: versions2))
        fetchCore = .error e := by
      simp [list_core_api_resources,
        try_collect_core_append_error fetchCore versions1 v versions2 e hok
          herr]
    obtain ⟨grouped, hg⟩ :
        ∃ r, list_api_groups_resources (.ok groups) fetchGroup = .ok r :=
      ⟨_, rfl⟩
    simp [list_api_resources, hg, hcore]

/-- Witness for C3: a failing grouped fetch contributes nothing and the
catalog build still succeeds; a failing core fetch fails the build. -/
theorem C3_discovery_failure_asymmetry_witness :
    group_pair_resources failingFetch "apps/v1" = [] ∧
    (∃ resources,
      list_api_groups_resources (.ok sampleGroups) failingFetch =
        .ok resources) ∧
    (∃ resources,
      list_api_resources (.ok sampleGroups) failingFetch (.ok ["v1"])
        sampleCoreFetch = .ok resources) ∧
    list_api_resources (.ok sampleGroups) sampleGroupFetch (.ok ["v1"])
      failingFetch = .error "connection refused" := by
  refine ⟨?_, ?_, ?_, ?_⟩
  · exact C3_discovery_failure_asymmetry.1 failingFetch "apps/v1"
      "connection refused" rfl
  · exact C3_discovery_failure_asymmetry.2.1 sampleGroups failingFetch
  · exact C3_discovery_failure_asymmetry.2.2.1 sampleGroups failingFetch
      ["v1"] sampleCoreFetch _ rfl
  · exact C3_discovery_failure_asymmetry.2.2.2 sampleGroups sampleGroupFetch
      [] "v1" [] failingFetch "connection refused" (by simp) rfl

/-- C8: every descriptor in a catalog built by list_api_resources has no
slash in its plural name: subresource descriptors are filtered out before
the catalog is exposed to the parser. -/
theorem C8_subresources_filtered
    (groupsRead : Except DiscoverError (List APIGroup))
    (fetchGroup : String → Except DiscoverError APIResourceList)
    (versionsRead : Except DiscoverError (List String))
    (fetchCore : String → Except DiscoverError APIResourceList)
    (catalog : List APIResource) (resource : APIResource)
    (hok : list_api_resources groupsRead fetchGroup versionsRead fetchCore =
      .ok catalog)
    (hmem : resource ∈ catalog) :
    resource.name.data.contains slash = false := by
  cases hg : list_api_groups_resources groupsRead fetchGroup with
  | error e => simp [list_api_resources, hg] at hok
  | ok grouped =>
    cases hc : list_core_api_resources versionsRead fetchCore with
    | error e => simp [list_api_resources, hg, hc] at hok
    | ok core =>
      have h2 : list_api_resources groupsRead fetchGroup versionsRead
          fetchCore = .ok ((grouped ++ core).filter
            (fun r => !(r.name.data.contains slash))) := by
        simp [list_api_resources, hg, hc]
      rw [h2] at hok
      have hcat := Except.ok.inj hok
      rw [← hcat] at hmem
      simpa using List.of_mem_filter hmem

/-- Witness for C8: a concrete discovery run whose core listing returns a
subresource; the surviving descriptor has no slash in its name. -/
theorem C8_subresources_filtered_witness :
    podsResource.name.data.contains slash = false :=
  C8_subresources_filtered (.ok []) failingFetch (.ok ["v1"]) sampleCoreFetch
    [podsResource] podsResource rfl (by simp)

/-- C10: core discovery back-fills group core and the requested version on
every descriptor it returns; grouped discovery back-fills group and version
whenever the requested group-version string contains a slash; and with
group and version present the DynamicObject accessors group, version and
api_version reach none of their unwrap panics. -/
theorem C10_backfill_gives_no_panic :
    (∀ versions fetch catalog resource,
      list_core_api_resources (.ok versions) fetch = .ok catalog →
      resource ∈ catalog →
      resource.group = some "core" ∧
        ∃ version ∈ versions, resource.version = some version) ∧
    (∀ group_version resources resource,
      group_version.data.contains slash = true →
      resource ∈ backfill_group_version group_version resources →
      resource.group.isSome ∧ resource.version.isSome) ∧
    (∀ dt : APIResource, dt.group.isSome → dt.version.isSome →
      ((DynamicObject.group dt).isSome ∧ (DynamicObject.version dt).isSome ∧
        (DynamicObject.api_version dt).isSome)) := by
  refine ⟨?_, ?_, ?_⟩
  · intro versions fetch catalog r hok hmem
    cases ht : try_collect_core fetch versions with
    | error e => simp [list_core_api_resources, ht] at hok
    | ok lists =>
      have hc : catalog = (lists.map APIResourceList.resources).flatten := by
        simp [list_core_api_resources, ht] at hok
        exact hok.symm
      rw [hc] at hmem
      exact try_collect_core_mem fetch versions lists r ht hmem
  · intro gv resources r hcontains hmem
    obtain ⟨x, _, rfl⟩ := List.mem_map.mp hmem
    have hsome : (split_once_aux slash gv.data).isSome :=
      contains_isSome_split_once_aux slash gv.data hcontains
    obtain ⟨⟨a, b⟩, hp⟩ := Option.isSome_iff_exists.mp hsome
    simp [split_once, hp]
  · intro dt hg hv
    obtain ⟨g, hg⟩ := Option.isSome_iff_exists.mp hg
    obtain ⟨v, hv⟩ := Option.isSome_iff_exists.mp hv
    by_cases hc : g = "core" <;>
      simp [DynamicObject.group, DynamicObject.version,
        DynamicObject.api_version, hg, hv, hc]

/-- Witness for C10: concrete back-fill on a core descriptor and a grouped
descriptor, and panic-freedom of the accessors on the result. -/
theorem C10_backfill_gives_no_panic_witness :
    (podsResource.group = some "core" ∧
      ∃ version ∈ ["v1"], podsResource.version = some version) ∧
    (deploymentsBackfilled.group.isSome ∧
      deploymentsBackfilled.version.isSome) ∧
    ((DynamicObject.group podsResource).isSome ∧
      (DynamicObject.version podsResource).isSome ∧
      (DynamicObject.api_version podsResource).isSome) := by
  refine ⟨?_, ?_, ?_⟩
  · exact C10_backfill_gives_no_panic.1 ["v1"] sampleCoreFetch _ podsResource
      rfl (by decide)
  · exact C10_backfill_gives_no_panic.2.1 "apps/v1" [deploymentsResource]
      deploymentsBackfilled (by decide) (by decide)
  · exact C10_backfill_gives_no_panic.2.2 podsResource (by decide) (by decide)

theorem collect_batches_map_ok (batches : List RecordBatch) :
    ∀ acc, collect_batches acc (batches.map Except.ok) = .ok (acc ++ batches) := by
  induction batches with
  | nil => intro acc; simp [collect_batches]
  | cons b bs ih =>
    intro acc
    simp only [List.map_cons, collect_batches]
    rw [ih]
    simp

theorem collect_batches_ok_then_error (batches : List RecordBatch)
    (e : ArrowError) (rest : List (Except ArrowError RecordBatch)) :
    ∀ acc, collect_batches acc (batches.map Except.ok ++ .error e :: rest) =
      if acc ++ batches = [] then .error e else .ok (acc ++ batches) := by
  induction batches with
  | nil =>
    intro acc
    cases acc <;> simp [collect_batches]
  | cons b bs ih =>
    intro acc
    simp only [List.map_cons, List.cons_append, collect_batches,
      List.append_eq]
    rw [ih]
    simp

/-- C4: over a reader whose successful batches decompose the decoded rows
of a blob of N well-formed lines, materialization returns a single batch
holding exactly those N rows; over the empty blob, where the reader yields
no batches at all, it returns the empty zero-row batch without error. -/
theorem C4_materialization_row_count (rows : List String)
    (batches : List RecordBatch)
    (hdecomp : (batches.map RecordBatch.rows).flatten = rows) :
    record_batch_from_ndjson (batches.map Except.ok) = .ok ⟨rows⟩ ∧
    record_batch_from_ndjson [] = .ok ⟨[]⟩ := by
  constructor
  · cases batches with
    | nil =>
      simp only [List.map_nil, List.flatten_nil] at hdecomp
      subst hdecomp
      rfl
    | cons b bs =>
      have hc := collect_batches_map_ok (b :: bs) []
      rw [List.nil_append] at hc
      simp only [List.map_cons] at hc
      simp [record_batch_from_ndjson, hc, concat_batches, ← hdecomp]
  · rfl

/-- Witness for C4: three rows split across two reader batches materialize
to exactly those three rows; the empty reader yields the empty batch. -/
theorem C4_materialization_row_count_witness :
    record_batch_from_ndjson [Except.ok ⟨["r1", "r2"]⟩, Except.ok ⟨["r3"]⟩] =
      .ok ⟨["r1", "r2", "r3"]⟩ ∧
    record_batch_from_ndjson [] = .ok ⟨[]⟩ :=
  C4_materialization_row_count ["r1", "r2", "r3"]
    [⟨["r1", "r2"]⟩, ⟨["r3"]⟩] (by decide)

/-- C5: if the very first reader batch fails, materialization and hence the
execution fail with that underlying error; if a batch fails after at least
one successful batch, reading stops at the failing batch and the previously
read batches are concatenated and returned as the single final batch. -/
theorem C5_chunk_failure_policy :
    (∀ e rest,
      record_batch_from_ndjson (.error e :: rest) = .error e ∧
      KubernetesExec.execute (.error e :: rest) = .error e) ∧
    (∀ batches e rest, batches ≠ [] →
      record_batch_from_ndjson (batches.map Except.ok ++ .error e :: rest) =
        .ok (concat_batches batches) ∧
      KubernetesExec.execute (batches.map Except.ok ++ .error e :: rest) =
        .ok [concat_batches batches]) := by
  constructor
  · intro e rest
    exact ⟨rfl, rfl⟩
  · intro batches e rest hne
    have hc := collect_batches_ok_then_error batches e rest []
    rw [List.nil_append, if_neg hne] at hc
    have h1 : record_batch_from_ndjson
        (batches.map Except.ok ++ .error e :: rest) =
        .ok (concat_batches batches) := by
      cases batches with
      | nil => exact absurd rfl hne
      | cons b bs =>
        simp only [List.map_cons, List.cons_append] at hc
        simp [record_batch_from_ndjson, hc]
    exact ⟨h1, by simp [KubernetesExec.execute, h1]⟩

/-- Witness for C5: a failure on the first batch fails materialization; a
failure after one successful batch truncates to that batch. -/
theorem C5_chunk_failure_policy_witness :
    record_batch_from_ndjson [Except.error "bad row", Except.ok ⟨["r1"]⟩] =
      .error "bad row" ∧
    record_batch_from_ndjson
        [Except.ok ⟨["r1"]⟩, Except.error "bad row", Except.ok ⟨["r2"]⟩] =
      .ok ⟨["r1"]⟩ := by
  refine ⟨(C5_chunk_failure_policy.1 "bad row"
    [Except.ok ⟨["r1"]⟩]).1, ?_⟩
  exact (C5_chunk_failure_policy.2 [⟨["r1"]⟩] "bad row"
    [Except.ok ⟨["r2"]⟩] (by decide)).1

/-- C6: when the addressing string parses and resolves but the object
listing returns zero items, try_new fails with a plan error whose message
names the resource kind and the namespace, rather than returning a provider
over an empty table. -/
theorem C6_empty_list_is_plan_error {Obj Schema : Type}
    (serialize : Obj → String) (context url : String)
    (api_resources : List APIResource)
    (kubeconfigRead : Except Unit Kubeconfig)
    (list_fn : APIResource → String → Except DataFusionError (ObjectList Obj))
    (infer_schema : String → Except DataFusionError Schema)
    (kubeurl : KubernetesUrl)
    (hparse : KubernetesUrl.parse url context api_resources kubeconfigRead =
      .ok kubeurl)
    (hlist : list_fn kubeurl.resource kubeurl.namespace_ = .ok ⟨[]⟩) :
    KubernetesTableProviderFactory.try_new serialize context api_resources
        kubeconfigRead list_fn infer_schema url =
      .error (.Plan ("No items found for resource " ++ squote
        ++ kubeurl.resource.kind ++ squote ++ " in namespace " ++ squote
        ++ kubeurl.namespace_ ++ squote)) := by
  simp [KubernetesTableProviderFactory.try_new, hparse, hlist]

/-- Witness for C6: a resolving addressing string whose listing is empty
produces the no-items plan error with the kind and namespace named. -/
theorem C6_empty_list_is_plan_error_witness :
    KubernetesTableProviderFactory.try_new (fun _ : Unit => "") "ctx"
        sampleCatalog (.error ()) (fun _ _ => .ok ⟨[]⟩)
        (fun _ => .ok ()) "pods" =
      .error (.Plan ("No items found for resource " ++ squote ++ "Pod"
        ++ squote ++ " in namespace " ++ squote ++ "default" ++ squote)) := by
  exact C6_empty_list_is_plan_error (fun _ : Unit => "") "ctx" "pods"
    sampleCatalog (.error ()) (fun _ _ => .ok ⟨[]⟩) (fun _ => .ok ())
    ⟨podsResource, "default"⟩ rfl rfl

end Kuqu
